import Mathlib

/-!
Verification of the transactional-outbox event relay connecting the sso
(identity) service and the userservice (profile) service.

The Go sources are shallowly embedded: SQL tables become lists of rows,
`database/sql` transactions become an explicit pending-write record that is
applied on commit and discarded on rollback, and infrastructure failure
points (begin, prepare, exec, commit, broker send, offset commit) are
injected through oracle records so that every error path of the source is a
reachable branch of the Lean function.
-/

namespace Spec2Proof

/-- Outbox row status, column `status` of table `messages` (enum new | sent). -/
inductive Status where
  | new
  | sent
deriving DecidableEq, Repr

/-- Row of the sso outbox table `messages`:
`id (auto-increment), event_type, payload, status (default new), created_at (default now)`.
`created_at` is a logical timestamp: the insertion counter at insert time. -/
structure MessageRow where
  id : Nat
  event_type : String
  payload : String
  status : Status
  created_at : Nat
deriving DecidableEq, Repr

/-- Row of the sso table `users` (`id` auto-increment, `email`, `pass_hash`). -/
structure UserRow where
  id : Nat
  email : String
  pass_hash : List Nat
deriving DecidableEq, Repr

/-- The sso service database: the domain table `users` and the outbox table
`messages`, rows listed in insertion order. -/
structure DB where
  users : List UserRow
  messages : List MessageRow
deriving DecidableEq, Repr

/-- An open `database/sql` transaction: the snapshot it started from plus the
writes executed inside it, which become visible only on commit. -/
structure Tx where
  base : DB
  pendingUsers : List UserRow
  pendingMessages : List MessageRow
deriving DecidableEq, Repr

/-- `db.Begin()`: open a transaction over the current database state. -/
def Tx.begin (db : DB) : Tx :=
  { base := db, pendingUsers := [], pendingMessages := [] }

/-- `tx.Commit()`: apply the pending writes to the base state. -/
def Tx.commit (tx : Tx) : DB :=
  { users := tx.base.users ++ tx.pendingUsers
    messages := tx.base.messages ++ tx.pendingMessages }

/-- `tx.Rollback()`: discard the pending writes. -/
def Tx.rollback (tx : Tx) : DB :=
  tx.base

namespace sqlite

/-- Outcome of executing the `INSERT INTO users` statement: success, a UNIQUE
constraint violation (`sqlite3.ErrConstraintUnique`), or another driver error. -/
inductive ExecOutcome where
  | ok
  | uniqueViolation
  | otherErr
deriving DecidableEq, Repr

/-- Infrastructure oracle for one `Storage.SaveUser` call: whether each
fallible step of the source succeeds. -/
structure SaveUserOracle where
  beginOk : Bool
  prepUserOk : Bool
  execUser : ExecOutcome
  lastIdOk : Bool
  prepEventOk : Bool
  execEventOk : Bool
  commitOk : Bool
deriving DecidableEq, Repr

/-- Errors of the sso storage layer (package `storage` sentinel errors plus
the wrapped driver failures). -/
inductive StorageErr where
  | userExists
  | noNewEvents
  | beginErr
  | prepareErr
  | execErr
  | lastInsertIdErr
  | commitErr
deriving DecidableEq, Repr

/-- The payload built by `SaveUser`:
`fmt.Sprintf("\x7b\"id\": %d, \"email\": \"%s\"\x7d", resID, email)`. -/
def eventPayloadString (id : Nat) (email : String) : String :=
  "\x7b\"id\": " ++ toString id ++ ", \"email\": \"" ++ email ++ "\"\x7d"

/-- `Storage.SaveEvent(ctx, tx, eventType, payload)`: prepare and execute
`INSERT INTO messages (event_type, payload) VALUES (?, ?)` inside the open
transaction; `status` defaults to `new` and `created_at` to the current
logical clock. -/
def SaveEvent (tx : Tx) (prepOk execOk : Bool) (eventType payload : String) :
    Except StorageErr Tx :=
  if prepOk = false then .error .prepareErr
  else if execOk = false then .error .execErr
  else .ok { tx with pendingMessages := tx.pendingMessages ++
    [{ id := tx.base.messages.length + tx.pendingMessages.length + 1
       event_type := eventType
       payload := payload
       status := Status.new
       created_at := tx.base.messages.length + tx.pendingMessages.length }] }

/-- `Storage.SaveUser(ctx, email, passHash)`: begin a transaction, insert the
user, read `LastInsertId`, record the `UserCreated` outbox event via
`SaveEvent` in the same transaction, then commit; the deferred handler rolls
the transaction back whenever the function is returning an error. -/
def SaveUser (db : DB) (email : String) (passHash : List Nat)
    (o : SaveUserOracle) : DB × Except StorageErr Nat :=
  if o.beginOk = false then (db, .error .beginErr)
  else
    let tx := Tx.begin db
    if o.prepUserOk = false then (tx.rollback, .error .prepareErr)
    else
      match o.execUser with
      | .uniqueViolation => (tx.rollback, .error .userExists)
      | .otherErr => (tx.rollback, .error .execErr)
      | .ok =>
        let resID := db.users.length + 1
        let tx2 : Tx := { tx with pendingUsers := tx.pendingUsers ++
          [{ id := resID, email := email, pass_hash := passHash }] }
        if o.lastIdOk = false then (tx2.rollback, .error .lastInsertIdErr)
        else
          match SaveEvent tx2 o.prepEventOk o.execEventOk "UserCreated"
              (eventPayloadString resID email) with
          | .error e => (tx2.rollback, .error e)
          | .ok tx3 =>
            if o.commitOk = false then (tx3.rollback, .error .commitErr)
            else (tx3.commit, .ok resID)

/-- Helper for `ORDER BY created_at LIMIT 1`: the row of the list with the
least `created_at` (first such row on a tie). -/
def minByCreatedAt : List MessageRow → Option MessageRow
  | [] => none
  | m :: ms =>
    match minByCreatedAt ms with
    | none => some m
    | some m2 => if m.created_at ≤ m2.created_at then some m else some m2

/-- `Storage.GetNewEvent(ctx)`:
`SELECT id, event_type, payload FROM messages WHERE status = new ORDER BY created_at LIMIT 1`;
no row means `storage.ErrNoNewEvents`. -/
def GetNewEvent (db : DB) : Except StorageErr MessageRow :=
  match minByCreatedAt (db.messages.filter (fun m => decide (m.status = Status.new))) with
  | none => .error .noNewEvents
  | some m => .ok m

/-- `Storage.MarkEventAsDone(ctx, eventID)`:
`UPDATE messages SET status = sent WHERE id = ?`. -/
def MarkEventAsDone (db : DB) (eventID : Nat) : DB :=
  { db with messages := (db.messages.map
      (fun m => if m.id = eventID then { m with status := Status.sent } else m)) }

end sqlite

namespace eventsender

/-- Observable broker and storage side effects of one drainer tick:
a successful `Send` acknowledgment and a `MarkEventAsDone` call. -/
inductive Action where
  | sendOkAct (id : Nat)
  | markAct (id : Nat)
deriving DecidableEq, Repr

/-- Infrastructure oracle for one drainer tick: whether the `GetNewEvent`
round-trip, the broker `Send`, and the `MarkEventAsDone` update succeed. -/
structure TickOracle where
  fetchOk : Bool
  sendOk : Bool
  markOk : Bool
deriving DecidableEq, Repr

/-- `Sender.processNewEvent(ctx)`: fetch the oldest `new` event (any fetch
error, including `ErrNoNewEvents`, ends the tick), treat a zero `ID` as no
new events, publish via the producer, and only then mark the event as sent;
every error path just returns, leaving the database untouched. -/
def processNewEvent (db : DB) (o : TickOracle) : DB × List Action :=
  if o.fetchOk = false then (db, [])
  else
    match sqlite.GetNewEvent db with
    | .error _ => (db, [])
    | .ok event =>
      if event.id = 0 then (db, [])
      else if o.sendOk = false then (db, [])
      else if o.markOk = false then (db, [Action.sendOkAct event.id])
      else (sqlite.MarkEventAsDone db event.id,
            [Action.sendOkAct event.id, Action.markAct event.id])

/-- One arrival of the `select` in `StartProcessingEvents`: either the
context is cancelled or the ticker fires (with the oracle of that tick). -/
inductive Signal where
  | cancel
  | tick (o : TickOracle)

/-- Whether a signal is the cancellation signal. -/
def Signal.isCancel : Signal → Bool
  | .cancel => true
  | .tick _ => false

/-- Result of running the drainer loop over a finite signal schedule. -/
structure LoopResult where
  finalDb : DB
  ticksRun : Nat
  stopped : Bool
deriving DecidableEq, Repr

/-- `Sender.StartProcessingEvents(ctx, handlePeriod)`: loop over the signal
schedule; on cancellation return immediately (`stopped := true`), on a ticker
signal run `processNewEvent` — whose errors are only logged — and continue. -/
def StartProcessingEvents (sig : List Signal) (db : DB) : LoopResult :=
  match sig with
  | [] => { finalDb := db, ticksRun := 0, stopped := false }
  | Signal.cancel :: _ => { finalDb := db, ticksRun := 0, stopped := true }
  | Signal.tick o :: rest =>
    let r := StartProcessingEvents rest (processNewEvent db o).1
    { r with ticksRun := r.ticksRun + 1 }

end eventsender

namespace eventgetter

/-- A broker message as read by the consumer (`kafka.Message`). -/
structure Message where
  key : String
  value : String
  offset : Nat
deriving DecidableEq, Repr

/-- Observable calls made by one relay tick, in order. -/
inductive RelayAction where
  | readAct (m : Message)
  | processErrAct (m : Message)
  | processOkAct (m : Message)
  | commitAct (m : Message)
deriving DecidableEq, Repr

/-- Oracle for one relay tick: the message delivered by `ReadMessage` (none
models a read error), whether `ProcessEvent` fails on a given message, and
whether `CommitMessages` succeeds. -/
structure RelayOracle where
  readResult : Option Message
  processFails : Message → Bool
  commitOk : Bool

/-- `Getter.processEvent(ctx)`: read one message (on error return), hand it
to the processor (on error return without committing), then commit the
offset (a commit error is only logged). -/
def processEvent (o : RelayOracle) : List RelayAction :=
  match o.readResult with
  | none => []
  | some m =>
    if o.processFails m then [RelayAction.readAct m, RelayAction.processErrAct m]
    else [RelayAction.readAct m, RelayAction.processOkAct m, RelayAction.commitAct m]

end eventgetter

namespace processors

/-- A JSON document for the user-event payload, as `encoding/json` sees it:
either malformed, or an object whose `id` and `email` fields may each be
absent. -/
structure RawJson where
  wellFormed : Bool
  idField : Option Int
  emailField : Option String
deriving DecidableEq, Repr

/-- The decoded payload struct `UserPayload { UserID int64; Email string }`. -/
structure UserPayload where
  UserID : Int
  Email : String
deriving DecidableEq, Repr

/-- `parseUserPayload(payload)`: `json.Unmarshal` into `UserPayload` —
malformed input is an error; in a well-formed object an absent field is
silently left at its zero value (0 for `id`, the empty string for `email`). -/
def parseUserPayload (payload : RawJson) : Option UserPayload :=
  if payload.wellFormed then
    some { UserID := payload.idField.getD 0, Email := payload.emailField.getD "" }
  else none

end processors

namespace sqlstorage

/-- The userservice projection row (`users` table of the userservice DB). -/
structure User where
  ID : Int
  Name : String
  Surname : String
  Avatar : List Nat
deriving DecidableEq, Repr

/-- Sentinel errors of the userservice storage package. -/
inductive UserStorageErr where
  | userNotFound
  | userAlreadyExists
deriving DecidableEq, Repr

/-- `SQLStorage.CreateUser(ctx, user)`:
`INSERT INTO users (id, name, surname, avatar) VALUES (...) ON CONFLICT (id) DO NOTHING RETURNING ...`;
when the id already exists the insert does nothing, no row comes back
(`sql.ErrNoRows`), and `storage.ErrUserAlreadyExists` is returned. -/
def CreateUser (st : List User) (user : User) : List User × Except UserStorageErr User :=
  if st.any (fun u => u.ID == user.ID) then (st, .error .userAlreadyExists)
  else (st ++ [user], .ok user)

end sqlstorage

namespace processors

/-- Errors returned by `UserProcessor.ProcessEvent`. -/
inductive ProcErr where
  | parseErr
  | createErr (e : sqlstorage.UserStorageErr)
deriving DecidableEq, Repr

/-- `UserProcessor.ProcessEvent(ctx, payload)`: parse the payload (parse
failure is an error), build the projection row with placeholder fields, and
`CreateUser` it; `ErrUserAlreadyExists` is deliberately mapped to success. -/
def ProcessEvent (st : List sqlstorage.User) (payload : RawJson) :
    List sqlstorage.User × Option ProcErr :=
  match parseUserPayload payload with
  | none => (st, some ProcErr.parseErr)
  | some up =>
    let user : sqlstorage.User :=
      { ID := up.UserID, Name := "no name", Surname := "no surname", Avatar := [] }
    match sqlstorage.CreateUser st user with
    | (st2, .ok _) => (st2, none)
    | (st2, .error e) =>
      if e = .userAlreadyExists then (st2, none)
      else (st2, some (ProcErr.createErr e))

end processors

namespace kafkaproducer

/-- The constructed producer client (the fields the writer is built from). -/
structure Producer where
  brokers : List String
  topic : String
deriving DecidableEq, Repr

/-- Constructor errors of `kafkaproducer.New`. -/
inductive ProducerErr where
  | noBrokers
  | noTopic
  | dialErr
deriving DecidableEq, Repr

/-- `kafkaproducer.New(log, brokers, topic, dialAdress)`: error when the
broker list is empty or the topic is the empty string, then dial the broker
(dial failure is an error); a `CreateTopics` failure is only logged, so the
constructor still succeeds after a successful dial. -/
def New (brokers : List String) (topic : String) (dialOk : Bool) :
    Except ProducerErr Producer :=
  if brokers.length = 0 then .error .noBrokers
  else if topic = "" then .error .noTopic
  else if dialOk = false then .error .dialErr
  else .ok { brokers := brokers, topic := topic }

end kafkaproducer

namespace kafkaconsumer

/-- The constructed consumer client (the fields the reader is built from). -/
structure Consumer where
  brokers : List String
  topic : String
  groupID : String
deriving DecidableEq, Repr

/-- Constructor errors of `kafkaconsumer.New`. -/
inductive ConsumerErr where
  | noBrokers
  | noTopic
  | dialErr
deriving DecidableEq, Repr

/-- `kafkaconsumer.New(log, brokers, topic, groupID, dialAddr)`: error when
the broker list is empty (`ErrNoBrokers`) or the topic is empty
(`ErrNoTopic`), then dial the broker; on success build the reader. -/
def New (brokers : List String) (topic : String) (groupID : String)
    (dialOk : Bool) : Except ConsumerErr Consumer :=
  if brokers.length = 0 then .error .noBrokers
  else if topic = "" then .error .noTopic
  else if dialOk = false then .error .dialErr
  else .ok { brokers := brokers, topic := topic, groupID := groupID }

end kafkaconsumer

/-- C1: every call to `SaveUser` is atomic across the domain insert and the
outbox insert: an error result leaves the database exactly as it was (zero
committed rows), and a success commits the one user row together with
exactly one `UserCreated` outbox row in status `new`; no execution commits
one write without the other. -/
theorem SaveUser_outbox_atomic (db : DB) (email : String) (passHash : List Nat)
    (o : sqlite.SaveUserOracle) :
    (∀ e, (sqlite.SaveUser db email passHash o).2 = .error e →
      (sqlite.SaveUser db email passHash o).1 = db) ∧
    (∀ resID, (sqlite.SaveUser db email passHash o).2 = .ok resID →
      resID = db.users.length + 1 ∧
      (sqlite.SaveUser db email passHash o).1 =
        { users := db.users ++ [{ id := resID, email := email, pass_hash := passHash }]
          messages := db.messages ++
            [{ id := db.messages.length + 1
               event_type := "UserCreated"
               payload := sqlite.eventPayloadString resID email
               status := Status.new
               created_at := db.messages.length }] }) := by
  obtain ⟨b, pu, eu, li, pe, ee, c⟩ := o
  cases b <;> cases pu <;> cases li <;> cases pe <;> cases ee <;> cases c <;> cases eu <;>
    simp [sqlite.SaveUser, sqlite.SaveEvent, Tx.begin, Tx.commit, Tx.rollback]

/-- Witness for C1: on an empty database with every infrastructure step
succeeding, `SaveUser` commits the user row and its single `new` outbox row. -/
theorem SaveUser_outbox_atomic_witness :
    (sqlite.SaveUser ⟨[], []⟩ "a@b.com" [7]
        ⟨true, true, .ok, true, true, true, true⟩).1 =
      { users := [{ id := 1, email := "a@b.com", pass_hash := [7] }]
        messages := [{ id := 1
                       event_type := "UserCreated"
                       payload := sqlite.eventPayloadString 1 "a@b.com"
                       status := Status.new
                       created_at := 0 }] } := by
  have h := (SaveUser_outbox_atomic ⟨[], []⟩ "a@b.com" [7]
      ⟨true, true, .ok, true, true, true, true⟩).2 1 rfl
  simpa using h.2

/-- The `ORDER BY created_at LIMIT 1` helper returns `none` only on the
empty row set. -/
theorem minByCreatedAt_eq_none {l : List MessageRow}
    (h : sqlite.minByCreatedAt l = none) : l = [] := by
  cases l with
  | nil => rfl
  | cons a l =>
    simp only [sqlite.minByCreatedAt] at h
    cases hrec : sqlite.minByCreatedAt l <;> rw [hrec] at h <;> simp at h
    split at h <;> simp at h

/-- The `ORDER BY created_at LIMIT 1` helper returns a member of the row set
whose `created_at` is a lower bound of the whole set. -/
theorem minByCreatedAt_spec {l : List MessageRow} {m : MessageRow}
    (h : sqlite.minByCreatedAt l = some m) :
    m ∈ l ∧ ∀ x ∈ l, m.created_at ≤ x.created_at := by
  revert h
  induction l generalizing m with
  | nil => intro h; simp [sqlite.minByCreatedAt] at h
  | cons a l ih =>
    intro h
    simp only [sqlite.minByCreatedAt] at h
    cases hrec : sqlite.minByCreatedAt l with
    | none =>
      rw [hrec] at h
      have hl : l = [] := minByCreatedAt_eq_none hrec
      subst hl
      simp at h
      subst h
      simp
    | some m2 =>
      rw [hrec] at h
      obtain ⟨hm2, hbound⟩ := ih hrec
      by_cases hle : a.created_at ≤ m2.created_at
      · simp [hle] at h
        subst h
        refine ⟨List.mem_cons_self a l, ?_⟩
        intro x hx
        rcases List.mem_cons.mp hx with hx | hx
        · exact hx ▸ le_refl _
        · exact le_trans hle (hbound x hx)
      · simp [hle] at h
        subst h
        refine ⟨List.mem_cons_of_mem a hm2, ?_⟩
        intro x hx
        rcases List.mem_cons.mp hx with hx | hx
        · exact hx ▸ le_of_lt (lt_of_not_le hle)
        · exact hbound x hx

/-- On a row list whose `created_at` values are strictly increasing in list
order, two distinct rows have distinct `created_at` values. -/
theorem pairwise_created_at_ne {l : List MessageRow}
    (h : l.Pairwise (fun a b => a.created_at < b.created_at)) :
    ∀ a ∈ l, ∀ b ∈ l, a ≠ b → a.created_at ≠ b.created_at := by
  induction l with
  | nil => intro a ha; simp at ha
  | cons x l ih =>
    rw [List.pairwise_cons] at h
    obtain ⟨hx, htail⟩ := h
    intro a ha b hb hne
    rcases List.mem_cons.mp ha with ha | ha <;> rcases List.mem_cons.mp hb with hb | hb
    · exact absurd (ha.trans hb.symm) hne
    · exact ha ▸ Nat.ne_of_lt (hx b hb)
    · exact hb ▸ Nat.ne_of_gt (hx a ha)
    · exact ih htail a ha b hb hne

/-- C5: whenever the outbox holds at least one `new` event (and rows appear
in creation order, i.e. `created_at` strictly increases along the table),
`GetNewEvent` returns exactly one event, a `new` one that was created
strictly before every other `new` event. -/
theorem GetNewEvent_returns_oldest_new (db : DB)
    (hmono : db.messages.Pairwise (fun a b => a.created_at < b.created_at))
    (hnew : ∃ m ∈ db.messages, m.status = Status.new) :
    ∃ m, sqlite.GetNewEvent db = .ok m ∧ m ∈ db.messages ∧ m.status = Status.new ∧
      ∀ m2 ∈ db.messages, m2.status = Status.new → m2 ≠ m →
        m.created_at < m2.created_at := by
  obtain ⟨w, hwmem, hwnew⟩ := hnew
  have hwl : w ∈ db.messages.filter (fun m => decide (m.status = Status.new)) :=
    List.mem_filter.mpr ⟨hwmem, by simp [hwnew]⟩
  cases hmin : sqlite.minByCreatedAt
      (db.messages.filter (fun m => decide (m.status = Status.new))) with
  | none =>
    rw [minByCreatedAt_eq_none hmin] at hwl
    simp at hwl
  | some m =>
    obtain ⟨hmeml, hbound⟩ := minByCreatedAt_spec hmin
    have hmem : m ∈ db.messages := (List.mem_filter.mp hmeml).1
    have hstat : m.status = Status.new := by
      have := (List.mem_filter.mp hmeml).2
      simpa using this
    refine ⟨m, ?_, hmem, hstat, ?_⟩
    · simp only [sqlite.GetNewEvent, hmin]
    · intro m2 hm2 hm2new hm2ne
      have hm2l : m2 ∈ db.messages.filter (fun m => decide (m.status = Status.new)) :=
        List.mem_filter.mpr ⟨hm2, by simp [hm2new]⟩
      have hle := hbound m2 hm2l
      have hne := pairwise_created_at_ne hmono m hmem m2 hm2 (Ne.symm hm2ne)
      exact lt_of_le_of_ne hle hne

/-- Witness for C5: on an outbox with a `sent` row followed by two `new`
rows, `GetNewEvent` returns the older of the two `new` rows. -/
theorem GetNewEvent_returns_oldest_new_witness :
    ∃ m, sqlite.GetNewEvent
        ⟨[], [⟨1, "UserCreated", "p1", Status.sent, 0⟩,
              ⟨2, "UserCreated", "p2", Status.new, 1⟩,
              ⟨3, "UserCreated", "p3", Status.new, 2⟩]⟩ = .ok m ∧
      m ∈ [⟨1, "UserCreated", "p1", Status.sent, 0⟩,
           ⟨2, "UserCreated", "p2", Status.new, 1⟩,
           ⟨3, "UserCreated", "p3", Status.new, 2⟩] ∧
      m.status = Status.new ∧
      ∀ m2 ∈ [(⟨1, "UserCreated", "p1", Status.sent, 0⟩ : MessageRow),
              ⟨2, "UserCreated", "p2", Status.new, 1⟩,
              ⟨3, "UserCreated", "p3", Status.new, 2⟩],
        m2.status = Status.new → m2 ≠ m → m.created_at < m2.created_at := by
  have h := GetNewEvent_returns_oldest_new
    ⟨[], [⟨1, "UserCreated", "p1", Status.sent, 0⟩,
          ⟨2, "UserCreated", "p2", Status.new, 1⟩,
          ⟨3, "UserCreated", "p3", Status.new, 2⟩]⟩
    (by simp [List.pairwise_cons]) ⟨⟨2, "UserCreated", "p2", Status.new, 1⟩, by simp, rfl⟩
  exact h

/-- C3: `ProcessEvent` is idempotent on every well-formed payload: the first
call succeeds, and a second call on the same payload leaves the projection
state unchanged and also succeeds (the already-exists case is mapped to
success). -/
theorem ProcessEvent_idempotent (st : List sqlstorage.User)
    (p : processors.RawJson) (up : processors.UserPayload)
    (hparse : processors.parseUserPayload p = some up) :
    (processors.ProcessEvent st p).2 = none ∧
    processors.ProcessEvent (processors.ProcessEvent st p).1 p =
      ((processors.ProcessEvent st p).1, none) := by
  cases hany : st.any (fun u => u.ID == up.UserID) with
  | true =>
    simp [processors.ProcessEvent, sqlstorage.CreateUser, hparse, hany]
  | false =>
    have hany2 : (st ++ [({ ID := up.UserID, Name := "no name", Surname := "no surname", Avatar := [] } : sqlstorage.User)]).any (fun u => u.ID == up.UserID) = true := by
      simp [List.any_append]
    simp [processors.ProcessEvent, sqlstorage.CreateUser, hparse, hany, hany2]

/-- Witness for C3: applying the payload with id 1 twice to the empty
projection state creates the row once; both calls succeed. -/
theorem ProcessEvent_idempotent_witness :
    (processors.ProcessEvent []
        { wellFormed := true, idField := some 1, emailField := some "a@b.com" }).2 = none ∧
    processors.ProcessEvent
        (processors.ProcessEvent []
          { wellFormed := true, idField := some 1, emailField := some "a@b.com" }).1
        { wellFormed := true, idField := some 1, emailField := some "a@b.com" } =
      ((processors.ProcessEvent []
          { wellFormed := true, idField := some 1, emailField := some "a@b.com" }).1,
        none) :=
  ProcessEvent_idempotent []
    { wellFormed := true, idField := some 1, emailField := some "a@b.com" }
    { UserID := 1, Email := "a@b.com" } rfl

/-- C6 evaluation: a well-formed payload with no `id` field is accepted by
`parseUserPayload` (Go `json.Unmarshal` leaves the absent field at its zero
value), and `ProcessEvent` then creates a projection with id 0 and returns
success — it does not reject the payload. -/
theorem ProcessEvent_missing_id_defaults_to_zero :
    processors.parseUserPayload
        { wellFormed := true, idField := none, emailField := some "a@b.com" } =
      some { UserID := 0, Email := "a@b.com" } ∧
    processors.ProcessEvent []
        { wellFormed := true, idField := none, emailField := some "a@b.com" } =
      ([{ ID := 0, Name := "no name", Surname := "no surname", Avatar := [] }],
        none) := by
  constructor <;> rfl

/-- C10: `CreateUser` never modifies an existing projection: when a row with
the given id is already stored, a later `CreateUser` with the same id (any
name, surname or avatar values) returns the already-exists error and leaves
the whole state, that row included, unchanged. -/
theorem CreateUser_preserves_existing_row (st : List sqlstorage.User)
    (u u2 : sqlstorage.User) (hmem : u ∈ st) (hid : u2.ID = u.ID) :
    sqlstorage.CreateUser st u2 = (st, .error .userAlreadyExists) := by
  have hany : st.any (fun x => x.ID == u2.ID) = true :=
    List.any_eq_true.mpr ⟨u, hmem, by simp [hid]⟩
  simp [sqlstorage.CreateUser, hany]

/-- Witness for C10: re-creating id 1 with different name, surname and
avatar leaves the stored row untouched and reports already-exists. -/
theorem CreateUser_preserves_existing_row_witness :
    sqlstorage.CreateUser [{ ID := 1, Name := "no name", Surname := "no surname", Avatar := [] }]
        { ID := 1, Name := "other", Surname := "person", Avatar := [3] } =
      ([{ ID := 1, Name := "no name", Surname := "no surname", Avatar := [] }],
        .error .userAlreadyExists) :=
  CreateUser_preserves_existing_row
    [{ ID := 1, Name := "no name", Surname := "no surname", Avatar := [] }]
    { ID := 1, Name := "no name", Surname := "no surname", Avatar := [] }
    { ID := 1, Name := "other", Surname := "person", Avatar := [3] }
    (List.mem_singleton.mpr rfl) rfl

/-- Case analysis of one drainer tick: either the tick is a no-op on the
database with an empty side-effect trace, or a nonzero-id `new` event was
fetched and sent, and the tick marked it sent exactly when the status update
succeeded. -/
theorem processNewEvent_cases (db : DB) (o : eventsender.TickOracle) :
    eventsender.processNewEvent db o = (db, []) ∨
    (∃ e, sqlite.GetNewEvent db = .ok e ∧ e.id ≠ 0 ∧ o.fetchOk = true ∧
      o.sendOk = true ∧
      ((o.markOk = false ∧
          eventsender.processNewEvent db o = (db, [eventsender.Action.sendOkAct e.id])) ∨
       (o.markOk = true ∧
          eventsender.processNewEvent db o =
            (sqlite.MarkEventAsDone db e.id,
              [eventsender.Action.sendOkAct e.id, eventsender.Action.markAct e.id])))) := by
  unfold eventsender.processNewEvent
  by_cases hf : o.fetchOk = false
  · rw [if_pos hf]
    exact Or.inl rfl
  · rw [if_neg hf]
    have hf2 : o.fetchOk = true := by
      cases h2 : o.fetchOk with
      | false => exact absurd h2 hf
      | true => rfl
    cases hg : sqlite.GetNewEvent db with
    | error e => exact Or.inl rfl
    | ok event =>
      by_cases hid : event.id = 0
      · left
        simp [hid]
      · by_cases hsend : o.sendOk = false
        · left
          simp [hid, hsend]
        · have hsend2 : o.sendOk = true := by
            cases h2 : o.sendOk with
            | false => exact absurd h2 hsend
            | true => rfl
          by_cases hmk : o.markOk = false
          · exact Or.inr ⟨event, rfl, hid, hf2, hsend2,
              Or.inl ⟨hmk, by simp [hid, hsend, hmk]⟩⟩
          · have hmk2 : o.markOk = true := by
              cases h2 : o.markOk with
              | false => exact absurd h2 hmk
              | true => rfl
            exact Or.inr ⟨event, rfl, hid, hf2, hsend2,
              Or.inr ⟨hmk2, by simp [hid, hsend, hmk]⟩⟩

/-- C4: when the broker `Send` fails, the drainer tick calls no
`MarkEventAsDone` and leaves the database unchanged, so the next fetch
returns the same event; and in every tick a mark action occurs only for an
event that was successfully sent in that tick. -/
theorem processNewEvent_marks_only_after_send (db : DB)
    (o : eventsender.TickOracle) :
    (o.sendOk = false →
      eventsender.processNewEvent db o = (db, []) ∧
      sqlite.GetNewEvent (eventsender.processNewEvent db o).1 =
        sqlite.GetNewEvent db) ∧
    (∀ i, eventsender.Action.markAct i ∈ (eventsender.processNewEvent db o).2 →
      eventsender.Action.sendOkAct i ∈ (eventsender.processNewEvent db o).2 ∧
      o.sendOk = true) := by
  rcases processNewEvent_cases db o with hkey | ⟨e, _, _, _, hs, hrest⟩
  · constructor
    · intro _
      exact ⟨hkey, by rw [hkey]⟩
    · intro i hi
      rw [hkey] at hi
      simp at hi
  · rcases hrest with ⟨_, hkey⟩ | ⟨_, hkey⟩
    · constructor
      · intro hsf
        rw [hs] at hsf
        simp at hsf
      · intro i hi
        rw [hkey] at hi
        simp at hi
    · constructor
      · intro hsf
        rw [hs] at hsf
        simp at hsf
      · intro i hi
        rw [hkey] at hi
        simp at hi
        rw [hkey]
        simp [hi, hs]

/-- Witness for C4: with one `new` event queued and a failing `Send`, the
tick leaves the outbox untouched and produces no side effect. -/
theorem processNewEvent_marks_only_after_send_witness :
    eventsender.processNewEvent
        ⟨[], [⟨1, "UserCreated", "p", Status.new, 0⟩]⟩ ⟨true, false, true⟩ =
      (⟨[], [⟨1, "UserCreated", "p", Status.new, 0⟩]⟩, []) :=
  ((processNewEvent_marks_only_after_send
      ⟨[], [⟨1, "UserCreated", "p", Status.new, 0⟩]⟩ ⟨true, false, true⟩).1 rfl).1

/-- C9: when `GetNewEvent` succeeds but hands back an event whose id is 0,
the drainer tick is a no-op: nothing is sent to the broker and
`MarkEventAsDone` is not called. -/
theorem processNewEvent_zero_id_is_noop (db : DB) (o : eventsender.TickOracle)
    (e : MessageRow) (hfetch : sqlite.GetNewEvent db = .ok e) (hid : e.id = 0) :
    eventsender.processNewEvent db o = (db, []) := by
  rcases processNewEvent_cases db o with hkey | ⟨e2, hg2, hid2, _, _, _⟩
  · exact hkey
  · rw [hfetch] at hg2
    injection hg2 with he
    rw [← he] at hid2
    exact absurd hid hid2

/-- Witness for C9: a lone outbox row with id 0 is fetched but neither sent
nor marked. -/
theorem processNewEvent_zero_id_is_noop_witness :
    eventsender.processNewEvent
        ⟨[], [⟨0, "UserCreated", "p", Status.new, 0⟩]⟩ ⟨true, true, true⟩ =
      (⟨[], [⟨0, "UserCreated", "p", Status.new, 0⟩]⟩, []) :=
  processNewEvent_zero_id_is_noop
    ⟨[], [⟨0, "UserCreated", "p", Status.new, 0⟩]⟩ ⟨true, true, true⟩
    ⟨0, "UserCreated", "p", Status.new, 0⟩ rfl rfl

/-- C8: the drainer loop is insensitive to tick-level errors: it executes a
tick for every ticker signal before the first cancellation, whatever the oracle of each
tick says, and it returns exactly when a cancellation signal
arrives — no tick runs at or after the cancellation. -/
theorem StartProcessingEvents_ticks_until_cancel
    (sig : List eventsender.Signal) (db : DB) :
    (eventsender.StartProcessingEvents sig db).ticksRun =
      (sig.takeWhile (fun s => ! s.isCancel)).length ∧
    (eventsender.StartProcessingEvents sig db).stopped =
      sig.any eventsender.Signal.isCancel := by
  induction sig generalizing db with
  | nil => simp [eventsender.StartProcessingEvents]
  | cons s rest ih =>
    cases s with
    | cancel =>
      simp [eventsender.StartProcessingEvents, eventsender.Signal.isCancel]
    | tick o =>
      have h := ih (eventsender.processNewEvent db o).1
      simp [eventsender.StartProcessingEvents, eventsender.Signal.isCancel,
        h.1, h.2]

/-- C2: in every relay tick that read a message, a processing failure ends
the tick right after the failed `ProcessEvent`, with no `CommitMessages`
call; the offset is committed only when `ProcessEvent` returned nil. -/
theorem processEvent_commits_only_after_success (o : eventgetter.RelayOracle)
    (m : eventgetter.Message) (hread : o.readResult = some m) :
    (o.processFails m = true →
      eventgetter.processEvent o =
        [eventgetter.RelayAction.readAct m, eventgetter.RelayAction.processErrAct m]) ∧
    (eventgetter.RelayAction.commitAct m ∈ eventgetter.processEvent o →
      o.processFails m = false) := by
  unfold eventgetter.processEvent
  rw [hread]
  cases hp : o.processFails m with
  | true => simp [hp]
  | false => simp [hp]

/-- Witness for C2: a relay tick whose processor always fails reads the
message, records the failure, and never reaches the commit call. -/
theorem processEvent_commits_only_after_success_witness :
    eventgetter.processEvent ⟨some ⟨"UserCreated", "v", 0⟩, fun _ => true, true⟩ =
      [eventgetter.RelayAction.readAct ⟨"UserCreated", "v", 0⟩,
       eventgetter.RelayAction.processErrAct ⟨"UserCreated", "v", 0⟩] :=
  (processEvent_commits_only_after_success
    ⟨some ⟨"UserCreated", "v", 0⟩, fun _ => true, true⟩
    ⟨"UserCreated", "v", 0⟩ rfl).1 rfl

/-- C7: both broker-client constructors fail fast on an empty broker list or
an empty topic name, producing no client, and any successfully constructed
client implies both were present. -/
theorem kafka_New_requires_brokers_and_topic (brokers : List String)
    (topic groupID : String) (dialOk : Bool) :
    ((brokers = [] ∨ topic = "") →
      (∃ e, kafkaproducer.New brokers topic dialOk = .error e) ∧
      (∃ e2, kafkaconsumer.New brokers topic groupID dialOk = .error e2)) ∧
    (∀ p, kafkaproducer.New brokers topic dialOk = .ok p →
      brokers ≠ [] ∧ topic ≠ "") ∧
    (∀ c, kafkaconsumer.New brokers topic groupID dialOk = .ok c →
      brokers ≠ [] ∧ topic ≠ "") := by
  by_cases hb : brokers = []
  · refine ⟨fun _ => ⟨⟨.noBrokers, ?_⟩, ⟨.noBrokers, ?_⟩⟩, fun p hp => ?_, fun c hc => ?_⟩
    · simp [kafkaproducer.New, hb]
    · simp [kafkaconsumer.New, hb]
    · simp [kafkaproducer.New, hb] at hp
    · simp [kafkaconsumer.New, hb] at hc
  · by_cases ht : topic = ""
    · refine ⟨fun _ => ⟨⟨.noTopic, ?_⟩, ⟨.noTopic, ?_⟩⟩, fun p hp => ?_, fun c hc => ?_⟩
      · simp [kafkaproducer.New, hb, ht, List.length_eq_zero]
      · simp [kafkaconsumer.New, hb, ht, List.length_eq_zero]
      · simp [kafkaproducer.New, hb, ht, List.length_eq_zero] at hp
      · simp [kafkaconsumer.New, hb, ht, List.length_eq_zero] at hc
    · refine ⟨fun hor => ?_, fun p _ => ⟨hb, ht⟩, fun c _ => ⟨hb, ht⟩⟩
      rcases hor with h | h
      · exact absurd h hb
      · exact absurd h ht

/-- Witness for C7: with an empty broker list both constructors return an
error. -/
theorem kafka_New_requires_brokers_and_topic_witness :
    (∃ e, kafkaproducer.New [] "user_events" true = .error e) ∧
    (∃ e2, kafkaconsumer.New [] "user_events" "g1" true = .error e2) :=
  (kafka_New_requires_brokers_and_topic [] "user_events" "g1" true).1 (Or.inl rfl)

end Spec2Proof
